import Mathlib

/-!
# Verification of the swarm-minecraft chunked world store and terrain generator

Shallow embedding of `src/store/gameStore.ts` (chunked voxel world store) and
`src/utils/noise.ts` (deterministic terrain height generator), with theorems
settling the specification's testable properties.

Conventions of the embedding:
* JS numbers used as integers (world coordinates, block ids, seeds) become `ℤ`;
  JS numbers used as real quantities (noise values, amplitudes, frequencies,
  heights) become `ℚ`, i.e. exact arithmetic.
* A `Uint8Array` becomes `Array ℕ`; an element write stores the value reduced
  mod 256 (the `ToUint8` coercion performed by typed-array assignment), an
  out-of-range read yields `none` and an out-of-range write is a no-op,
  matching typed-array semantics.
* The zustand store's state is a `WorldState` record; each mutating action is a
  function `WorldState → WorldState`, and `getBlock` is a pure function of the
  state (the source action only reads, never calls `set`).
* The JS `Map` keyed by the template string is a function `String → Option _`.
-/

namespace SwarmMinecraft

/-- Horizontal size of a chunk in blocks (`const CHUNK_SIZE = 16`). -/
def CHUNK_SIZE : ℤ := 16

/-- Vertical height of a chunk in blocks (`const CHUNK_HEIGHT = 256`).
The specification calls this quantity `WORLD_HEIGHT`. -/
def CHUNK_HEIGHT : ℤ := 256

/-- The spec's name for the vertical world span; in the source it is
`CHUNK_HEIGHT` (chunks span the full world height). -/
def WORLD_HEIGHT : ℤ := CHUNK_HEIGHT

/-- Chunk data: flat array of block ids
(`new Uint8Array(CHUNK_SIZE * CHUNK_SIZE * CHUNK_HEIGHT)`). -/
abbrev ChunkData : Type := Array ℕ

/-- Source `getChunkKey(chunkX, chunkZ)`: the template literal `` `${chunkX},${chunkZ}` ``. -/
def getChunkKey (chunkX chunkZ : ℤ) : String :=
  toString chunkX ++ "," ++ toString chunkZ

/-- Source `worldToChunkX(worldX) = Math.floor(worldX / CHUNK_SIZE)`; on integer
inputs the JS float division by 16 is exact, so this is the floor of the
exact quotient. -/
def worldToChunkX (worldX : ℤ) : ℤ :=
  ⌊(worldX : ℚ) / (CHUNK_SIZE : ℚ)⌋

/-- Source `worldToChunkZ(worldZ) = Math.floor(worldZ / CHUNK_SIZE)`. -/
def worldToChunkZ (worldZ : ℤ) : ℤ :=
  ⌊(worldZ : ℚ) / (CHUNK_SIZE : ℚ)⌋

/-- Source `worldToLocal`: JS `%` is the truncating remainder (`Int.tmod`), then a
negative result is shifted up by `CHUNK_SIZE`. -/
def worldToLocal (worldCoord : ℤ) : ℤ :=
  let xlocal := Int.tmod worldCoord CHUNK_SIZE
  if xlocal < 0 then xlocal + CHUNK_SIZE else xlocal

/-- Source `getBlockIndex(localX, y, localZ) = localX + localZ * CHUNK_SIZE + y * CHUNK_SIZE * CHUNK_SIZE`. -/
def getBlockIndex (localX y localZ : ℤ) : ℤ :=
  localX + localZ * CHUNK_SIZE + y * CHUNK_SIZE * CHUNK_SIZE

/-- The world state held by the zustand store: the chunk map (keyed by the
`getChunkKey` string), the generation seed, and the player position. -/
structure WorldState where
  chunks : String → Option ChunkData
  seed : ℤ
  playerPosition : ℚ × ℚ × ℚ

/-- Source `createEmptyChunkData()`: a `Uint8Array` of length
`CHUNK_SIZE * CHUNK_SIZE * CHUNK_HEIGHT`, zero-filled (all air). -/
def createEmptyChunkData : ChunkData :=
  mkArray (CHUNK_SIZE * CHUNK_SIZE * CHUNK_HEIGHT).toNat 0

/-- The `ToUint8` coercion applied by a `Uint8Array` element write to an
integer value: reduction mod 2^8 to a value in `[0, 256)`. -/
def toUint8 (v : ℤ) : ℕ :=
  (v % 256).toNat

/-- Source `addChunk(chunkX, chunkZ, data)`: copies the chunk map and stores `data`
under the key — unconditionally; the source performs no validation of
`data`'s length. -/
def addChunk (st : WorldState) (chunkX chunkZ : ℤ) (data : ChunkData) : WorldState :=
  let key := getChunkKey chunkX chunkZ
  { st with chunks := fun k => if k = key then some data else st.chunks k }

/-- Source `getBlock(x, y, z)`: `undefined` (here `none`) when `y` is out of
`[0, CHUNK_HEIGHT)` or the chunk is missing; otherwise the byte at the linear
index (`none` again if the index falls outside the stored array, which is
what a typed-array read returns there). Reads never modify the state: the
source action only calls `get()`, never `set()`, which the embedding
reflects by `getBlock` being a function of the state alone. -/
def getBlock (st : WorldState) (x y z : ℤ) : Option ℕ :=
  if y < 0 ∨ CHUNK_HEIGHT ≤ y then none
  else
    let chunkX := worldToChunkX x
    let chunkZ := worldToChunkZ z
    let key := getChunkKey chunkX chunkZ
    match st.chunks key with
    | none => none
    | some chunkData =>
      let localX := worldToLocal x
      let localZ := worldToLocal z
      let index := getBlockIndex localX y localZ
      if index < 0 then none else chunkData[index.toNat]?

/-- Source `setBlock(x, y, z, type)`: no-op outside the vertical bounds; otherwise
copies the chunk map, takes the existing chunk (cloned — `new
Uint8Array(chunkData)` — which the functional update models) or a fresh empty
one, writes the byte at the linear index (a typed-array write outside the
array bounds is a no-op), and stores the new chunk under the key. -/
def setBlock (st : WorldState) (x y z : ℤ) (type : ℤ) : WorldState :=
  if y < 0 ∨ CHUNK_HEIGHT ≤ y then st
  else
    let key := getChunkKey (worldToChunkX x) (worldToChunkZ z)
    let chunkData := (st.chunks key).getD createEmptyChunkData
    let index := getBlockIndex (worldToLocal x) y (worldToLocal z)
    let newData := if index < 0 then chunkData else chunkData.setD index.toNat (toUint8 type)
    { st with chunks := fun k => if k = key then some newData else st.chunks k }

/-- Source `removeBlock(x, y, z)`: `setBlock(x, y, z, 0)`. -/
def removeBlock (st : WorldState) (x y z : ℤ) : WorldState :=
  setBlock st x y z 0

/-- Well-formed world: every stored chunk has the full
`CHUNK_SIZE * CHUNK_SIZE * CHUNK_HEIGHT` length. This holds for every state
built by `setBlock` / `removeBlock` / valid `addChunk` calls. -/
def WF (st : WorldState) : Prop :=
  ∀ k d, st.chunks k = some d → d.size = (CHUNK_SIZE * CHUNK_SIZE * CHUNK_HEIGHT).toNat

/-- The store's initial state: empty chunk map, a session seed (`Date.now()`
at store creation, a parameter here), player at `[0, 64, 0]`. -/
def initialWorld (seed : ℤ) : WorldState :=
  { chunks := fun _ => none, seed := seed, playerPosition := (0, 64, 0) }

/-- A small concrete state used by concrete instances below: one (deliberately
short) chunk stored at chunk coordinates `(0, 0)`. -/
def sampleWorld : WorldState :=
  { chunks := fun k => if k = getChunkKey 0 0 then some #[3, 4] else none
    seed := 0
    playerPosition := (0, 64, 0) }

/-- Octave configuration (`interface OctaveConfig`). -/
structure OctaveConfig where
  amplitude : ℚ
  frequency : ℚ

/-- Source `DEFAULT_OCTAVES`: amplitudes `1, 0.5, 0.25`, frequencies `0.01, 0.02, 0.04`. -/
def DEFAULT_OCTAVES : List OctaveConfig :=
  [⟨1, 1 / 100⟩, ⟨1 / 2, 1 / 50⟩, ⟨1 / 4, 1 / 25⟩]

/-- The body of `getTerrainHeight` generalized over the octave list: the
`for`-loop accumulating `(noiseSum, totalAmplitude)`, then
`noiseSum / totalAmplitude * maxHeight`. -/
def getTerrainHeightWith (octaves : List OctaveConfig)
    (noise : ℚ → ℚ → ℚ) (x z maxHeight : ℚ) : ℚ :=
  let acc := octaves.foldl
    (fun (acc : ℚ × ℚ) octave =>
      (acc.1 + noise (x * octave.frequency) (z * octave.frequency) * octave.amplitude,
       acc.2 + octave.amplitude))
    (0, 0)
  acc.1 / acc.2 * maxHeight

/-- Source `getTerrainHeight(noise, x, z, maxHeight)` from `src/utils/noise.ts`,
with the source's fixed `DEFAULT_OCTAVES`. -/
def getTerrainHeight (noise : ℚ → ℚ → ℚ) (x z maxHeight : ℚ) : ℚ :=
  getTerrainHeightWith DEFAULT_OCTAVES noise x z maxHeight

/-- The per-call increment of the seeded PRNG state (`0x6d2b79f5`). -/
def MULBERRY_INC : ℤ := 0x6d2b79f5

/-- JS `ToUint32`: reduction mod 2^32 into `[0, 2^32)`, as a natural number
(the common bit pattern of the int32/uint32 views). -/
def toUint32 (v : ℤ) : ℕ :=
  (v % 4294967296).toNat

/-- One output of the seeded PRNG in `createTerrainNoise`, given the (exact)
accumulated state: the mulberry32-style integer mixing
`t = imul(t ^ (t >>> 15), t | 1); t ^= t + imul(t ^ (t >>> 7), t | 61);
return ((t ^ (t >>> 14)) >>> 0) / 4294967296`, computed on the 32-bit bit
patterns (each JS bitwise operator and `Math.imul` works mod 2^32, and the
one float addition of two int32 values is exact before being wrapped by the
following bitwise xor). -/
def mulberryMix (state : ℤ) : ℚ :=
  let t0 := toUint32 state
  let t1 := (Nat.xor t0 (t0 >>> 15) * (t0 ||| 1)) % 4294967296
  let t2 := Nat.xor t1 ((t1 + Nat.xor t1 (t1 >>> 7) * (t1 ||| 61) % 4294967296) % 4294967296)
  let t3 := Nat.xor t2 (t2 >>> 14)
  (t3 : ℚ) / 4294967296

/-- The stream of values produced by the closure `random` in
`createTerrainNoise`: the k-th call (0-based) sees state
`seed + (k+1) * 0x6d2b79f5` (the state is incremented before mixing; the
accumulation itself is exact JS float addition on integer values). -/
def randomStream (seed : ℤ) (k : ℕ) : ℚ :=
  mulberryMix (seed + (k + 1) * MULBERRY_INC)

/-- Modelled from the spec: the external `simplex-noise` library's
`createNoise2D(random)` is not part of this repository's sources. Per the
spec, its only observable contract is that it is a deterministic pure
function of the random stream it consumes, yielding a raw 2-D gradient-noise
signal; it is therefore modelled as an arbitrary pure function from the
random stream to a 2-D noise function. -/
def Noise2DBuilder : Type :=
  (ℕ → ℚ) → ℚ → ℚ → ℚ

/-- Source `createTerrainNoise(seed)`: seeds the PRNG, builds the library 2-D noise
from it, and normalizes the raw `[-1, 1]` signal to `[0, 1]` via
`(value + 1) / 2`. The builder for the external library function is a
parameter (see `Noise2DBuilder`). Construction is a pure function of the
seed: no I/O and no wall-clock dependence exists in the model or in the
source constructor. -/
def createTerrainNoise (builder : Noise2DBuilder) (seed : ℤ) : ℚ → ℚ → ℚ :=
  fun x z => (builder (randomStream seed) x z + 1) / 2

/-- Bridge: the source's `Math.floor(worldX / 16)` on integers is integer
division (Euclidean/floored division agree since 16 > 0). -/
theorem worldToChunkX_eq_ediv (x : ℤ) : worldToChunkX x = x / 16 := by
  unfold worldToChunkX CHUNK_SIZE
  have h := Rat.floor_intCast_div_natCast x 16
  simpa using h

/-- Bridge: `worldToChunkZ` likewise is integer division by 16. -/
theorem worldToChunkZ_eq_ediv (z : ℤ) : worldToChunkZ z = z / 16 := by
  unfold worldToChunkZ CHUNK_SIZE
  have h := Rat.floor_intCast_div_natCast z 16
  simpa using h

/-- Bridge: `worldToLocal` computes the Euclidean (non-negative) remainder. -/
theorem worldToLocal_eq_emod (x : ℤ) : worldToLocal x = x % 16 := by
  unfold worldToLocal CHUNK_SIZE
  cases x with
  | ofNat m =>
    have htm : Int.tmod (Int.ofNat m) 16 = ((m % 16 : ℕ) : ℤ) := rfl
    have hon : Int.ofNat m = (m : ℤ) := rfl
    rw [htm, hon]
    dsimp only
    split <;> omega
  | negSucc m =>
    have htm : Int.tmod (Int.negSucc m) 16 = -(((m + 1) % 16 : ℕ) : ℤ) := rfl
    have hns : Int.negSucc m = -((m : ℤ) + 1) := Int.negSucc_eq m
    rw [htm, hns]
    dsimp only
    split <;> omega

/-- Lemma: `worldToLocal` lands in `[0, CHUNK_SIZE)`. -/
theorem worldToLocal_bounds (x : ℤ) : 0 ≤ worldToLocal x ∧ worldToLocal x < 16 := by
  rw [worldToLocal_eq_emod]
  omega

/-- Lemma: `Array.setD` then read at the written (in-bounds) index. -/
theorem getElem?_setD_self (a : Array ℕ) (i : ℕ) (v : ℕ) (h : i < a.size) :
    (a.setD i v)[i]? = some v := by
  unfold Array.setD
  split
  · exact Array.getElem?_set_eq a ⟨i, h⟩ v
  · omega

/-- Lemma: `Array.setD` leaves every other index unchanged. -/
theorem getElem?_setD_other (a : Array ℕ) (i j : ℕ) (v : ℕ) (hne : i ≠ j) :
    (a.setD i v)[j]? = a[j]? := by
  unfold Array.setD
  split
  · exact Array.getElem?_set_ne a _ v hne
  · rfl

/-- The linear block index is non-negative and below the chunk volume when the
local coordinates and `y` are in range. -/
theorem getBlockIndex_bounds (lx y lz : ℤ) (hlx : 0 ≤ lx) (hlx16 : lx < 16)
    (hlz : 0 ≤ lz) (hlz16 : lz < 16) (hy0 : 0 ≤ y) (hy : y < 256) :
    0 ≤ getBlockIndex lx y lz ∧ getBlockIndex lx y lz < 65536 := by
  unfold getBlockIndex CHUNK_SIZE
  constructor <;> nlinarith

/-- What `setBlock` does to the chunk map when `y` is in bounds: the target
key is bound to the written-to copy of the old (or fresh empty) chunk, every
other key keeps its previous binding. -/
theorem setBlock_chunks (st : WorldState) (x y z t : ℤ)
    (hy0 : 0 ≤ y) (hy : y < CHUNK_HEIGHT) :
    (setBlock st x y z t).chunks = fun k =>
      if k = getChunkKey (worldToChunkX x) (worldToChunkZ z) then
        some (((st.chunks (getChunkKey (worldToChunkX x) (worldToChunkZ z))).getD
                createEmptyChunkData).setD
              (getBlockIndex (worldToLocal x) y (worldToLocal z)).toNat (toUint8 t))
      else st.chunks k := by
  have hguard : ¬ (y < 0 ∨ CHUNK_HEIGHT ≤ y) := by
    unfold CHUNK_HEIGHT at *
    omega
  have hlx := worldToLocal_bounds x
  have hlz := worldToLocal_bounds z
  have hidx := getBlockIndex_bounds (worldToLocal x) y (worldToLocal z)
    hlx.1 hlx.2 hlz.1 hlz.2 hy0 (by unfold CHUNK_HEIGHT at hy; exact hy)
  have hneg : ¬ getBlockIndex (worldToLocal x) y (worldToLocal z) < 0 := by omega
  unfold setBlock
  rw [if_neg hguard]
  dsimp only
  rw [if_neg hneg]

/-- Lemma: `setBlock` outside the vertical bounds is the identity on the state. -/
theorem setBlock_out_of_bounds (st : WorldState) (x y z t : ℤ)
    (hguard : y < 0 ∨ CHUNK_HEIGHT ≤ y) :
    setBlock st x y z t = st := by
  unfold setBlock
  rw [if_pos hguard]

/-- Lemma: `getBlock` outside the vertical bounds is `none`. -/
theorem getBlock_out_of_bounds (st : WorldState) (x y z : ℤ)
    (hguard : y < 0 ∨ CHUNK_HEIGHT ≤ y) :
    getBlock st x y z = none := by
  unfold getBlock
  rw [if_pos hguard]

/-- Lemma: `getBlock` when the target chunk is absent. -/
theorem getBlock_of_chunk_none (st : WorldState) (x y z : ℤ)
    (hc : st.chunks (getChunkKey (worldToChunkX x) (worldToChunkZ z)) = none) :
    getBlock st x y z = none := by
  unfold getBlock
  split
  · rfl
  · dsimp only
    rw [hc]

/-- Lemma: `getBlock` when `y` is in bounds and the target chunk is present: the
typed-array read at the linear index. -/
theorem getBlock_of_chunk_some (st : WorldState) (x y z : ℤ) (d : ChunkData)
    (hy0 : 0 ≤ y) (hy : y < CHUNK_HEIGHT)
    (hc : st.chunks (getChunkKey (worldToChunkX x) (worldToChunkZ z)) = some d) :
    getBlock st x y z = d[(getBlockIndex (worldToLocal x) y (worldToLocal z)).toNat]? := by
  have hguard : ¬ (y < 0 ∨ CHUNK_HEIGHT ≤ y) := by
    unfold CHUNK_HEIGHT at *
    omega
  have hlx := worldToLocal_bounds x
  have hlz := worldToLocal_bounds z
  have hidx := getBlockIndex_bounds (worldToLocal x) y (worldToLocal z)
    hlx.1 hlx.2 hlz.1 hlz.2 hy0 (by unfold CHUNK_HEIGHT at hy; exact hy)
  have hneg : ¬ getBlockIndex (worldToLocal x) y (worldToLocal z) < 0 := by omega
  unfold getBlock
  rw [if_neg hguard]
  dsimp only
  rw [hc]
  dsimp only
  rw [if_neg hneg]

/-- Core round-trip: on a well-formed state, an in-bounds `setBlock` followed
by `getBlock` at the same coordinates returns the stored byte `toUint8 t`. -/
theorem getBlock_setBlock_same (st : WorldState) (x y z t : ℤ) (hWF : WF st)
    (hy0 : 0 ≤ y) (hy : y < CHUNK_HEIGHT) :
    getBlock (setBlock st x y z t) x y z = some (toUint8 t) := by
  have hchunks := setBlock_chunks st x y z t hy0 hy
  have hc : (setBlock st x y z t).chunks (getChunkKey (worldToChunkX x) (worldToChunkZ z)) =
      some (((st.chunks (getChunkKey (worldToChunkX x) (worldToChunkZ z))).getD
              createEmptyChunkData).setD
            (getBlockIndex (worldToLocal x) y (worldToLocal z)).toNat (toUint8 t)) := by
    rw [hchunks]
    dsimp only
    rw [if_pos rfl]
  have hsize : ((st.chunks (getChunkKey (worldToChunkX x) (worldToChunkZ z))).getD
      createEmptyChunkData).size = 65536 := by
    cases hsk : st.chunks (getChunkKey (worldToChunkX x) (worldToChunkZ z)) with
    | none =>
      rw [Option.getD_none]
      unfold createEmptyChunkData
      rw [Array.size_mkArray]
      decide
    | some d =>
      rw [Option.getD_some]
      have hd := hWF _ d hsk
      rw [hd]
      decide
  have hlx := worldToLocal_bounds x
  have hlz := worldToLocal_bounds z
  have hidx := getBlockIndex_bounds (worldToLocal x) y (worldToLocal z)
    hlx.1 hlx.2 hlz.1 hlz.2 hy0 (by unfold CHUNK_HEIGHT at hy; exact hy)
  have hlt : (getBlockIndex (worldToLocal x) y (worldToLocal z)).toNat <
      ((st.chunks (getChunkKey (worldToChunkX x) (worldToChunkZ z))).getD
        createEmptyChunkData).size := by
    rw [hsize]
    omega
  rw [getBlock_of_chunk_some _ x y z _ hy0 hy hc]
  exact getElem?_setD_self _ _ _ hlt

/-- Claim C1: for every world coordinate `(x, y, z)` with
`0 ≤ y < WORLD_HEIGHT` and every valid block id (`0 ≤ id < 256`), calling
`setBlock(x, y, z, id)` on a well-formed state and then `getBlock(x, y, z)`
on the resulting state returns `id`. -/
theorem claim_C1_set_get_roundtrip (st : WorldState) (x y z : ℤ) (b : ℕ)
    (hWF : WF st) (hy0 : 0 ≤ y) (hy : y < WORLD_HEIGHT) (hb : b < 256) :
    getBlock (setBlock st x y z (b : ℤ)) x y z = some b := by
  have hy2 : y < CHUNK_HEIGHT := by
    unfold WORLD_HEIGHT at hy
    exact hy
  have h := getBlock_setBlock_same st x y z (b : ℤ) hWF hy0 hy2
  rw [h]
  have hb2 : toUint8 (b : ℤ) = b := by
    unfold toUint8
    omega
  rw [hb2]

/-- Witness for C1 at the store's empty initial state, `(x, y, z) = (3, 4, 5)`,
block id 7. -/
theorem claim_C1_witness :
    getBlock (setBlock (initialWorld 1) 3 4 5 ((7 : ℕ) : ℤ)) 3 4 5 = some 7 :=
  claim_C1_set_get_roundtrip (initialWorld 1) 3 4 5 7
    (fun _ _ h => nomatch h) (by decide) (by decide) (by decide)

/-- Claim C2: for every integer world coordinate `x`,
`chunkCoord(x) * CHUNK_SIZE + localCoord(x) = x`; `localCoord` always lands in
`[0, CHUNK_SIZE)`; and at `-1` in particular `localCoord(-1) = CHUNK_SIZE - 1`
and `chunkCoord(-1) = -1`. -/
theorem claim_C2_coordinate_roundtrip (x : ℤ) :
    worldToChunkX x * CHUNK_SIZE + worldToLocal x = x ∧
    0 ≤ worldToLocal x ∧ worldToLocal x < CHUNK_SIZE ∧
    worldToLocal (-1) = CHUNK_SIZE - 1 ∧
    worldToChunkX (-1) = -1 := by
  have h1 := worldToChunkX_eq_ediv x
  have h2 := worldToLocal_eq_emod x
  have h3 := worldToLocal_eq_emod (-1)
  have h4 := worldToChunkX_eq_ediv (-1)
  unfold CHUNK_SIZE
  rw [h1, h2, h3, h4]
  refine ⟨by omega, by omega, by omega, by omega, by omega⟩

/-- Claim C5: for `y` outside `[0, WORLD_HEIGHT)`, `getBlock` returns `absent`
(`none`), `setBlock` leaves the entire world state unchanged, and a subsequent
`getBlock` at that coordinate still returns `absent`. -/
theorem claim_C5_vertical_bounds (st : WorldState) (x y z t : ℤ)
    (hy : y < 0 ∨ WORLD_HEIGHT ≤ y) :
    getBlock st x y z = none ∧ setBlock st x y z t = st ∧
    getBlock (setBlock st x y z t) x y z = none := by
  have hg : y < 0 ∨ CHUNK_HEIGHT ≤ y := by
    unfold WORLD_HEIGHT at hy
    exact hy
  refine ⟨getBlock_out_of_bounds st x y z hg, setBlock_out_of_bounds st x y z t hg, ?_⟩
  rw [setBlock_out_of_bounds st x y z t hg]
  exact getBlock_out_of_bounds st x y z hg

/-- Witness for C5 at `y = -1`. -/
theorem claim_C5_witness :
    getBlock (initialWorld 2) 0 (-1) 0 = none ∧
    setBlock (initialWorld 2) 0 (-1) 0 5 = initialWorld 2 ∧
    getBlock (setBlock (initialWorld 2) 0 (-1) 0 5) 0 (-1) 0 = none :=
  claim_C5_vertical_bounds (initialWorld 2) 0 (-1) 0 5 (Or.inl (by decide))

/-- Claim C6: reading a coordinate whose chunk was never created returns
`absent`, and does not materialize the chunk — `getBlock` is a pure function
of the state in the source (the action only calls `get()`), so the chunk map,
seed and player position are untouched by the read; in particular a
subsequent `addChunk` at that chunk's coordinates still stores its data. -/
theorem claim_C6_lazy_read (st : WorldState) (x y z : ℤ) (data : ChunkData)
    (hc : st.chunks (getChunkKey (worldToChunkX x) (worldToChunkZ z)) = none) :
    getBlock st x y z = none ∧
    (addChunk st (worldToChunkX x) (worldToChunkZ z) data).chunks
      (getChunkKey (worldToChunkX x) (worldToChunkZ z)) = some data := by
  refine ⟨getBlock_of_chunk_none st x y z hc, ?_⟩
  unfold addChunk
  dsimp only
  rw [if_pos rfl]

/-- Witness for C6 at the empty initial state and the never-written
coordinate `(20, 10, -20)`. -/
theorem claim_C6_witness :
    getBlock (initialWorld 3) 20 10 (-20) = none ∧
    (addChunk (initialWorld 3) (worldToChunkX 20) (worldToChunkZ (-20)) #[1]).chunks
      (getChunkKey (worldToChunkX 20) (worldToChunkZ (-20))) = some #[1] :=
  claim_C6_lazy_read (initialWorld 3) 20 10 (-20) #[1] rfl

/-- Claim C7: an in-bounds `setBlock` leaves the chunk stored at every other key
exactly as it was, and replaces the target chunk by a written-to copy, so a
snapshot of the old chunk data keeps its values at every untouched index:
reading the new chunk at any index other than the written one yields the old
chunk's value there. -/
theorem claim_C7_snapshot_isolation (st : WorldState) (x y z t : ℤ)
    (k : String) (dOld : ChunkData) (i : ℕ)
    (hy0 : 0 ≤ y) (hy : y < WORLD_HEIGHT)
    (hold : st.chunks (getChunkKey (worldToChunkX x) (worldToChunkZ z)) = some dOld)
    (hk : k ≠ getChunkKey (worldToChunkX x) (worldToChunkZ z))
    (hi : i ≠ (getBlockIndex (worldToLocal x) y (worldToLocal z)).toNat) :
    (setBlock st x y z t).chunks k = st.chunks k ∧
    ((setBlock st x y z t).chunks (getChunkKey (worldToChunkX x) (worldToChunkZ z))).map
      (fun d => d[i]?) = some (dOld[i]?) := by
  have hy2 : y < CHUNK_HEIGHT := by
    unfold WORLD_HEIGHT at hy
    exact hy
  have hchunks := setBlock_chunks st x y z t hy0 hy2
  constructor
  · rw [hchunks]
    dsimp only
    rw [if_neg hk]
  · rw [hchunks]
    dsimp only
    rw [if_pos rfl, hold, Option.getD_some, Option.map_some']
    exact congrArg some (getElem?_setD_other dOld _ i _ (Ne.symm hi))

/-- Witness for C7: `sampleWorld` holds a chunk at `(0, 0)`; writing block 9
at `(0, 0, 0)` leaves the binding of key `(1, 0)` unchanged and the target
chunk's value at index 1 unchanged. -/
theorem claim_C7_witness :
    (setBlock sampleWorld 0 0 0 9).chunks (getChunkKey 1 0) =
      sampleWorld.chunks (getChunkKey 1 0) ∧
    ((setBlock sampleWorld 0 0 0 9).chunks
        (getChunkKey (worldToChunkX 0) (worldToChunkZ 0))).map
      (fun d => d[1]?) = some ((#[3, 4] : ChunkData)[1]?) :=
  claim_C7_snapshot_isolation sampleWorld 0 0 0 9 (getChunkKey 1 0) #[3, 4] 1
    (by decide) (by decide)
    (by simp only [worldToChunkX_eq_ediv, worldToChunkZ_eq_ediv]; decide)
    (by simp only [worldToChunkX_eq_ediv, worldToChunkZ_eq_ediv]; decide)
    (by decide)

/-- Claim C10: chunk storage is a `Uint8Array`, so `setBlock` stores the block
id truncated to its low 8 bits: for every in-bounds coordinate on a
well-formed state and every integer id `t`, `setBlock(x, y, z, t)` then
`getBlock(x, y, z)` returns `t mod 256` — exact round-tripping therefore
holds precisely for ids in `[0, 255]`. -/
theorem claim_C10_mod256_truncation (st : WorldState) (x y z t : ℤ)
    (hWF : WF st) (hy0 : 0 ≤ y) (hy : y < WORLD_HEIGHT) :
    getBlock (setBlock st x y z t) x y z = some (t % 256).toNat := by
  have hy2 : y < CHUNK_HEIGHT := by
    unfold WORLD_HEIGHT at hy
    exact hy
  exact getBlock_setBlock_same st x y z t hWF hy0 hy2

/-- Witness for C10 with the out-of-range id 300: the stored and re-read
value is `300 mod 256 = 44`. -/
theorem claim_C10_witness :
    getBlock (setBlock (initialWorld 4) 0 0 0 300) 0 0 0 =
      some ((300 : ℤ) % 256).toNat :=
  claim_C10_mod256_truncation (initialWorld 4) 0 0 0 300
    (fun _ _ h => nomatch h) (by decide) (by decide)

/-- Claim C4 counterexample: `addChunk` performs no shape validation. With a
chunk already stored at `(0, 0)`, calling `addChunk(0, 0, #[1, 2, 3])` —
whose length 3 differs from `CHUNK_SIZE² × WORLD_HEIGHT = 65536` — does not
fail and does not leave the existing chunk untouched: it replaces it with the
wrong-length data. -/
theorem claim_C4_counterexample :
    (#[1, 2, 3] : ChunkData).size ≠ (CHUNK_SIZE * CHUNK_SIZE * CHUNK_HEIGHT).toNat ∧
    sampleWorld.chunks (getChunkKey 0 0) = some #[3, 4] ∧
    (addChunk sampleWorld 0 0 #[1, 2, 3]).chunks (getChunkKey 0 0) = some #[1, 2, 3] ∧
    (addChunk sampleWorld 0 0 #[1, 2, 3]).chunks (getChunkKey 0 0) ≠
      sampleWorld.chunks (getChunkKey 0 0) := by
  refine ⟨by decide, by decide, by decide, by decide⟩

/-- Claim C4 amended: `addChunk(cx, cz, data)` never fails and performs no
length validation — it stores `data` at the key for `(cx, cz)` unconditionally
(inserting or replacing), leaves every other key's chunk untouched, and does
not change the seed or player position. -/
theorem claim_C4_addChunk_unvalidated (st : WorldState) (cx cz : ℤ)
    (data : ChunkData) (k : String) (hk : k ≠ getChunkKey cx cz) :
    (addChunk st cx cz data).chunks (getChunkKey cx cz) = some data ∧
    (addChunk st cx cz data).chunks k = st.chunks k ∧
    (addChunk st cx cz data).seed = st.seed ∧
    (addChunk st cx cz data).playerPosition = st.playerPosition := by
  unfold addChunk
  dsimp only
  exact ⟨by rw [if_pos rfl], by rw [if_neg hk], rfl, rfl⟩

/-- Witness for the amended C4: a length-1 array is stored as-is on the empty
initial state. -/
theorem claim_C4_witness :
    (addChunk (initialWorld 5) 0 0 #[9]).chunks (getChunkKey 0 0) = some #[9] ∧
    (addChunk (initialWorld 5) 0 0 #[9]).chunks (getChunkKey 2 0) =
      (initialWorld 5).chunks (getChunkKey 2 0) ∧
    (addChunk (initialWorld 5) 0 0 #[9]).seed = (initialWorld 5).seed ∧
    (addChunk (initialWorld 5) 0 0 #[9]).playerPosition = (initialWorld 5).playerPosition :=
  claim_C4_addChunk_unvalidated (initialWorld 5) 0 0 #[9] (getChunkKey 2 0) (by decide)

/-- The amplitudes of `DEFAULT_OCTAVES` are non-negative. -/
theorem DEFAULT_OCTAVES_amp_nonneg : ∀ o ∈ DEFAULT_OCTAVES, 0 ≤ o.amplitude := by
  intro o ho
  simp only [DEFAULT_OCTAVES, List.mem_cons, List.not_mem_nil, or_false] at ho
  rcases ho with h | h | h <;> subst h <;> norm_num

/-- The octave loop's accumulated pair `(noiseSum, totalAmplitude)` keeps
`0 ≤ noiseSum ≤ totalAmplitude` whenever the base noise stays in `[0, 1]`
and every amplitude is non-negative, from any accumulator satisfying the same
relation. -/
theorem terrainAcc_bounds (noise : ℚ → ℚ → ℚ) (x z : ℚ)
    (h0 : ∀ a b, 0 ≤ noise a b) (h1 : ∀ a b, noise a b ≤ 1) :
    ∀ (octaves : List OctaveConfig), (∀ o ∈ octaves, 0 ≤ o.amplitude) →
    ∀ s t : ℚ, 0 ≤ s → s ≤ t →
    0 ≤ (octaves.foldl (fun (acc : ℚ × ℚ) octave =>
          (acc.1 + noise (x * octave.frequency) (z * octave.frequency) * octave.amplitude,
           acc.2 + octave.amplitude)) (s, t)).1 ∧
    (octaves.foldl (fun (acc : ℚ × ℚ) octave =>
          (acc.1 + noise (x * octave.frequency) (z * octave.frequency) * octave.amplitude,
           acc.2 + octave.amplitude)) (s, t)).1 ≤
    (octaves.foldl (fun (acc : ℚ × ℚ) octave =>
          (acc.1 + noise (x * octave.frequency) (z * octave.frequency) * octave.amplitude,
           acc.2 + octave.amplitude)) (s, t)).2 := by
  intro octaves
  induction octaves with
  | nil =>
    intro _ s t hs hst
    exact ⟨hs, hst⟩
  | cons o os ih =>
    intro hamp s t hs hst
    rw [List.foldl_cons]
    dsimp only
    have ho : 0 ≤ o.amplitude := hamp o (List.mem_cons_self o os)
    refine ih (fun p hp => hamp p (List.mem_cons_of_mem _ hp)) _ _ ?_ ?_
    · exact add_nonneg hs (mul_nonneg (h0 _ _) ho)
    · exact add_le_add hst (mul_le_of_le_one_left ho (h1 _ _))

/-- For `0 ≤ S ≤ T` and `0 ≤ M`, the normalized-and-scaled value `S / T * M`
lies in `[0, M]` (when `T = 0` then `S = 0` and the value is `0`). -/
theorem div_mul_bounds (S T M : ℚ) (hS : 0 ≤ S) (hST : S ≤ T) (hM : 0 ≤ M) :
    0 ≤ S / T * M ∧ S / T * M ≤ M := by
  have hr : 0 ≤ S / T ∧ S / T ≤ 1 := by
    rcases (hS.trans hST).lt_or_eq with hT | hT
    · exact ⟨div_nonneg hS hT.le, (div_le_one hT).mpr hST⟩
    · have hS0 : S = 0 := le_antisymm (hT ▸ hST) hS
      rw [hS0, ← hT]
      norm_num
  exact ⟨mul_nonneg hr.1 hM, mul_le_of_le_one_left hM hr.2⟩

/-- Claim C3: for every octave list with non-negative amplitudes — in
particular the source's `DEFAULT_OCTAVES`, i.e. regardless of octave count —
if the base noise returns values in `[0, 1]` and `maxHeight ≥ 0`, then the
terrain height is in `[0, maxHeight]`: the weighted octave sum is divided by
the total of the same amplitudes used as weights. -/
theorem claim_C3_height_bound (octaves : List OctaveConfig)
    (noise : ℚ → ℚ → ℚ) (x z maxHeight : ℚ)
    (hamp : ∀ o ∈ octaves, 0 ≤ o.amplitude)
    (h0 : ∀ a b, 0 ≤ noise a b) (h1 : ∀ a b, noise a b ≤ 1)
    (hm : 0 ≤ maxHeight) :
    (0 ≤ getTerrainHeightWith octaves noise x z maxHeight ∧
      getTerrainHeightWith octaves noise x z maxHeight ≤ maxHeight) ∧
    (0 ≤ getTerrainHeight noise x z maxHeight ∧
      getTerrainHeight noise x z maxHeight ≤ maxHeight) := by
  have hgen : ∀ (octs : List OctaveConfig), (∀ o ∈ octs, 0 ≤ o.amplitude) →
      0 ≤ getTerrainHeightWith octs noise x z maxHeight ∧
      getTerrainHeightWith octs noise x z maxHeight ≤ maxHeight := by
    intro octs hampo
    have hb := terrainAcc_bounds noise x z h0 h1 octs hampo 0 0 le_rfl le_rfl
    unfold getTerrainHeightWith
    dsimp only
    exact div_mul_bounds _ _ _ hb.1 hb.2 hm
  exact ⟨hgen octaves hamp, hgen DEFAULT_OCTAVES DEFAULT_OCTAVES_amp_nonneg⟩

/-- Witness for C3 with the constant mid-range noise `1/2` and
`maxHeight = 64`. -/
theorem claim_C3_witness :
    (0 ≤ getTerrainHeightWith DEFAULT_OCTAVES (fun _ _ => 1 / 2) 10 20 64 ∧
      getTerrainHeightWith DEFAULT_OCTAVES (fun _ _ => 1 / 2) 10 20 64 ≤ 64) ∧
    (0 ≤ getTerrainHeight (fun _ _ => 1 / 2) 10 20 64 ∧
      getTerrainHeight (fun _ _ => 1 / 2) 10 20 64 ≤ 64) :=
  claim_C3_height_bound DEFAULT_OCTAVES (fun _ _ => 1 / 2) 10 20 64
    DEFAULT_OCTAVES_amp_nonneg
    (fun _ _ => by norm_num) (fun _ _ => by norm_num) (by norm_num)

/-- Claim C8: the terrain pipeline is deterministic — a noise source
constructed by `createTerrainNoise` is a pure function of the seed alone (the
seeded PRNG stream `randomStream` is determined by the seed, and the external
2-D noise builder is a pure function of that stream), so two sources built
from equal seeds agree at every `(x, z)`, and `getTerrainHeight` built on
them agrees at every `(x, z, maxHeight)`. Construction involves no I/O and no
wall-clock reads: the only inputs of `createTerrainNoise` are the builder and
the seed. -/
theorem claim_C8_determinism (builder : Noise2DBuilder) (seed1 seed2 : ℤ)
    (x z maxHeight : ℚ) (hseed : seed1 = seed2) :
    createTerrainNoise builder seed1 x z = createTerrainNoise builder seed2 x z ∧
    getTerrainHeight (createTerrainNoise builder seed1) x z maxHeight =
      getTerrainHeight (createTerrainNoise builder seed2) x z maxHeight := by
  subst hseed
  exact ⟨rfl, rfl⟩

/-- Witness for C8 at seed 42 with a concrete builder. -/
theorem claim_C8_witness :
    createTerrainNoise (fun _ _ _ => 0) 42 1 2 =
      createTerrainNoise (fun _ _ _ => 0) 42 1 2 ∧
    getTerrainHeight (createTerrainNoise (fun _ _ _ => 0) 42) 1 2 64 =
      getTerrainHeight (createTerrainNoise (fun _ _ _ => 0) 42) 1 2 64 :=
  claim_C8_determinism (fun _ _ _ => 0) 42 42 1 2 64 rfl

/-- Claim C9 counterexample: `getTerrainHeight` does not return `0` for
negative `maxHeight`. With the constant in-range base noise `1/2` at
`(x, z) = (0, 0)` and `maxHeight = -1`, the code returns
`normalizedHeight * maxHeight = (1/2) * (-1) = -1/2 ≠ 0`. -/
theorem claim_C9_counterexample :
    getTerrainHeight (fun _ _ => 1 / 2) 0 0 (-1) = -(1 / 2) ∧
    getTerrainHeight (fun _ _ => 1 / 2) 0 0 (-1) ≠ 0 := by
  have h : getTerrainHeight (fun _ _ => 1 / 2) 0 0 (-1) = -(1 / 2) := by
    simp only [getTerrainHeight, getTerrainHeightWith, DEFAULT_OCTAVES,
      List.foldl_cons, List.foldl_nil]
    norm_num
  refine ⟨h, ?_⟩
  rw [h]
  norm_num

/-- Claim C9 amended: `getTerrainHeight` is a total function of its (rational)
inputs — the embedding is a total Lean function, as the source has no failure
path — and `maxHeight = 0` yields exactly `0`; but for `maxHeight ≤ 0` the
result is only guaranteed non-positive (`normalizedHeight * maxHeight`), not
`0`. -/
theorem claim_C9_nonpositive_maxHeight (noise : ℚ → ℚ → ℚ) (x z maxHeight : ℚ)
    (h0 : ∀ a b, 0 ≤ noise a b) (h1 : ∀ a b, noise a b ≤ 1)
    (hm : maxHeight ≤ 0) :
    getTerrainHeight noise x z maxHeight ≤ 0 ∧
    getTerrainHeight noise x z 0 = 0 := by
  constructor
  · have hb := terrainAcc_bounds noise x z h0 h1 DEFAULT_OCTAVES
      DEFAULT_OCTAVES_amp_nonneg 0 0 le_rfl le_rfl
    unfold getTerrainHeight getTerrainHeightWith
    dsimp only
    have hr : 0 ≤ (DEFAULT_OCTAVES.foldl (fun (acc : ℚ × ℚ) octave =>
          (acc.1 + noise (x * octave.frequency) (z * octave.frequency) * octave.amplitude,
           acc.2 + octave.amplitude)) (0, 0)).1 /
        (DEFAULT_OCTAVES.foldl (fun (acc : ℚ × ℚ) octave =>
          (acc.1 + noise (x * octave.frequency) (z * octave.frequency) * octave.amplitude,
           acc.2 + octave.amplitude)) (0, 0)).2 :=
      div_nonneg hb.1 (hb.1.trans hb.2)
    nlinarith [hr, hm]
  · unfold getTerrainHeight getTerrainHeightWith
    dsimp only
    rw [mul_zero]

/-- Witness for the amended C9 with constant noise `1/2` and
`maxHeight = -1`. -/
theorem claim_C9_witness :
    getTerrainHeight (fun _ _ => 1 / 2) 3 4 (-1) ≤ 0 ∧
    getTerrainHeight (fun _ _ => 1 / 2) 3 4 0 = 0 :=
  claim_C9_nonpositive_maxHeight (fun _ _ => 1 / 2) 3 4 (-1)
    (fun _ _ => by norm_num) (fun _ _ => by norm_num) (by norm_num)

end SwarmMinecraft
